import Mathlib

/-
Verification of the incident-counting scripts: the count estimators, the
category-discovery aggregation, the report writers, the filename encoder
and the configuration loader, modelled as pure Lean functions over
character lists (Python strings) and byte lists, with every external
service call (search index, key-phrase extraction, chat completion,
filesystem writes) passed in as an explicit oracle argument.
-/

namespace AzureIncidents

/-- Python str.lower applied characterwise.  Char.toLower lowers exactly
the ASCII range, which matches Python on the ASCII text these scripts
handle. -/
def pyLower (s : List Char) : List Char := s.map Char.toLower

/-- Python substring membership test, sub in s. -/
def pyContains : List Char → List Char → Bool
  | [], sub => sub.isEmpty
  | c :: rest, sub => sub.isPrefixOf (c :: rest) || pyContains rest sub

/-- Scan of Python s.count(sub), structured on an explicit step bound so
that it evaluates by kernel reduction; every step consumes at least one
character of the text, so a bound of one more than the text length is
never exhausted. -/
def pyCountFuel (sub : List Char) : Nat → List Char → Nat
  | 0, _ => 0
  | _ + 1, [] => if sub.isEmpty then 1 else 0
  | fuel + 1, c :: rest =>
    if sub.isEmpty then (c :: rest).length + 1
    else if sub.isPrefixOf (c :: rest) then
      1 + pyCountFuel sub fuel (rest.drop (sub.length - 1))
    else
      pyCountFuel sub fuel rest

/-- Python s.count(sub): the number of non-overlapping occurrences of sub
in s, scanning left to right (after a match the scan resumes past the
matched text); an empty pattern yields len(s) + 1. -/
def pyCount (s sub : List Char) : Nat := pyCountFuel sub (s.length + 1) s

/-- The document separator used by every count estimator:
combined_content is the documents joined by a blank line. -/
def joinDocs (docs : List (List Char)) : List Char :=
  List.intercalate ['\n', '\n'] docs

/-- count_incidents from tasks/query_azure_search_all.py (the same body
appears in tasks/query_azureai.py and in the archived variant): the
lexical count estimator.  The retrieval result is passed in as docs and
the external key-phrase-extraction call is the oracle extract (applied to
the combined content, returning the extracted phrase list of a successful
response).  The second component of the result records whether the
key-phrase service was invoked, so that call-count properties can be
stated. -/
def count_incidents_lex (extract : List Char → List (List Char))
    (docs : List (List Char)) (query_incident : List Char) : Nat × Bool :=
  if docs.isEmpty then (0, false)
  else
    let combined_content := joinDocs docs
    let key_phrases := extract combined_content
    if key_phrases.isEmpty then (0, true)
    else
      let phrase_count :=
        (key_phrases.filter
          (fun phrase => pyContains (pyLower phrase) (pyLower query_incident))).length
      let content_count := pyCount (pyLower combined_content) (pyLower query_incident)
      (max phrase_count content_count, true)

/-- The lexical estimator as the specification describes it in words:
content_count is the case-insensitive substring count of the label in the
concatenation, phrase_count is the number of extracted phrases that
case-insensitively contain the label, and the result is their max, with
no further branching for a non-empty document set.  Kept separate from
count_incidents_lex so the two can be compared. -/
def count_incidents_lexSpec (extract : List Char → List (List Char))
    (docs : List (List Char)) (query_incident : List Char) : Nat :=
  let combined_content := joinDocs docs
  let content_count := pyCount (pyLower combined_content) (pyLower query_incident)
  let phrase_count :=
    ((extract combined_content).filter
      (fun phrase => pyContains (pyLower phrase) (pyLower query_incident))).length
  max content_count phrase_count

/-- Counterexample input for the lexical estimator: one retrieved
document whose text contains Fire twice and FIRE once. -/
def c1Docs : List (List Char) := [("Fire alarm. Fire exit. FIRE.").toList]

/-- A key-phrase extraction that returns no phrases for any input. -/
def c1NoPhrases : List Char → List (List Char) := fun _ => []

/-- C1 (counterexample): with a non-empty retrieved document set whose
concatenation contains the label three times case-insensitively, but a
key-phrase extraction returning an empty phrase list, count_incidents
returns 0 while the claimed value max(content_count, phrase_count) is 3,
so the claim does not hold for every non-empty document set. -/
theorem count_incidents_lex_empty_phrases_cex :
    c1Docs ≠ [] ∧
    (count_incidents_lex c1NoPhrases c1Docs (("fire").toList)).1 = 0 ∧
    count_incidents_lexSpec c1NoPhrases c1Docs (("fire").toList) = 3 :=
  ⟨by decide, by decide, by decide⟩

/-- C1 (amended): for every label and every non-empty retrieved document
set, whenever the key-phrase extraction returns a non-empty phrase list,
count_incidents returns exactly max(content_count, phrase_count) as the
spec words define those counts; when the extraction returns an empty
phrase list the function returns 0 instead. -/
theorem count_incidents_lex_eq_spec_max (extract : List Char → List (List Char))
    (docs : List (List Char)) (query_incident : List Char)
    (hdocs : docs ≠ []) (hkp : extract (joinDocs docs) ≠ []) :
    (count_incidents_lex extract docs query_incident).1 =
      count_incidents_lexSpec extract docs query_incident := by
  have h1 : docs.isEmpty = false := by
    simpa [List.isEmpty_iff] using hdocs
  have h2 : (extract (joinDocs docs)).isEmpty = false := by
    simpa [List.isEmpty_iff] using hkp
  simp [count_incidents_lex, count_incidents_lexSpec, h1, h2, Nat.max_comm]

/-- A key-phrase extraction returning one phrase that does not contain
the label, realising the phrase_count = 0 side of the spec example. -/
def c1wExtract : List Char → List (List Char) := fun _ => [("station").toList]

/-- Witness for the amended C1: on the concrete fire example with a
non-empty, non-matching phrase list the estimator returns 3. -/
theorem count_incidents_lex_eq_spec_max_witness :
    (count_incidents_lex c1wExtract c1Docs (("fire").toList)).1 = 3 := by
  have h := count_incidents_lex_eq_spec_max c1wExtract c1Docs (("fire").toList)
    (by decide) (by decide)
  exact h.trans (by decide)

/-- Python str.strip strips exactly these whitespace characters at the
ASCII level. -/
def pyIsSpace (c : Char) : Bool :=
  c == ' ' || c == '\t' || c == '\n' || c == '\r' || c == '\x0b' || c == '\x0c'

/-- Python str.strip: remove leading and trailing whitespace. -/
def pyStrip (s : List Char) : List Char :=
  ((s.dropWhile pyIsSpace).reverse.dropWhile pyIsSpace).reverse

/-- An unsigned run of ASCII decimal digits, as consumed by Python int();
empty or non-digit input is rejected. -/
def parseDigits (s : List Char) : Option Nat :=
  if s ≠ [] ∧ s.all Char.isDigit then
    some (s.foldl (fun acc c => acc * 10 + (c.toNat - 48)) 0)
  else none

/-- Python int(s) on ASCII decimal text: strip whitespace, allow one
optional sign, then require a non-empty digit run; anything else raises
ValueError, modelled as none. -/
def pyInt (s0 : List Char) : Option Int :=
  match pyStrip s0 with
  | '-' :: rest => (parseDigits rest).map (fun n => -(n : Int))
  | '+' :: rest => (parseDigits rest).map (fun n => (n : Int))
  | s => (parseDigits s).map (fun n => (n : Int))

/-- The apostrophe character, kept as a named constant. -/
def squote : Char := Char.ofNat 39

/-- The user prompt built by count_incidents in
tasks/query_azureai_all.py (and tasks/query_openai.py), embedding the
label and the concatenated documents. -/
def countUserMessage (query_incident combined_content : List Char) : List Char :=
  ("Based on the following incident reports, how many distinct incidents related to ").toList
    ++ [squote] ++ query_incident ++ [squote]
    ++ (" can you identify? Please provide only a number as your response.").toList
    ++ ("\n\nIncident reports:\n").toList ++ combined_content

/-- count_incidents from tasks/query_azureai_all.py: the model-delegated
count estimator.  The search call is passed in as its outcome
search_result, the completion service as the oracle complete; every
failure path of the source try/except returns 0.  The second component
records whether the completion service was invoked. -/
def count_incidents_ai (search_result : Except (List Char) (List (List Char)))
    (complete : List Char → Except (List Char) (List Char))
    (query_incident : List Char) : Int × Bool :=
  match search_result with
  | .error _ => (0, false)
  | .ok docs =>
    if docs.isEmpty then (0, false)
    else
      let combined_content := joinDocs docs
      match complete (countUserMessage query_incident combined_content) with
      | .error _ => (0, true)
      | .ok resp =>
        match pyInt (pyStrip resp) with
        | none => (0, true)
        | some count => (count, true)

/-- One row of the final report: name, ground-truth count, discovered
count. -/
structure IncidentRecord where
  name : List Char
  ground_truth_count : Int
  discovered_count : Int
deriving DecidableEq

/-- The per-label loop of main in tasks/query_azureai_all.py: one record
per configured label, then a stable sort by ground_truth_count in
descending order before the report is written. -/
def query_azureai_all_main
    (search : List Char → Except (List Char) (List (List Char)))
    (complete : List Char → Except (List Char) (List Char))
    (incident_types : List (List Char × Int)) : List IncidentRecord :=
  (incident_types.map (fun p =>
    IncidentRecord.mk p.1 p.2 (count_incidents_ai (search p.1) complete p.1).1)).mergeSort
    (fun a b => decide (b.ground_truth_count ≤ a.ground_truth_count))

/-- C2: for every label, when retrieval returns an empty document set,
both the lexical and the model-delegated count_incidents return 0 with
the downstream (key-phrase or completion) service not invoked. -/
theorem count_incidents_empty_retrieval
    (extract : List Char → List (List Char))
    (complete : List Char → Except (List Char) (List Char))
    (query_incident : List Char) :
    count_incidents_lex extract [] query_incident = (0, false) ∧
    count_incidents_ai (.ok []) complete query_incident = (0, false) :=
  ⟨rfl, rfl⟩

/-- C3: the model-delegated count_incidents is a total function that
returns 0 when the search fails, when the completion service fails, or
when the completion text does not parse as an integer; and main still
produces a report with exactly one record for every configured label,
the failed label carrying discovered_count as computed (0 on failure). -/
theorem count_incidents_ai_never_raises
    (search : List Char → Except (List Char) (List (List Char)))
    (complete : List Char → Except (List Char) (List Char))
    (incident_types : List (List Char × Int)) :
    ((query_azureai_all_main search complete incident_types).length =
      incident_types.length) ∧
    (∀ t g, (t, g) ∈ incident_types →
      ∃ r, r ∈ query_azureai_all_main search complete incident_types ∧
        r.name = t ∧ r.ground_truth_count = g ∧
        r.discovered_count = (count_incidents_ai (search t) complete t).1) ∧
    (∀ e q, (count_incidents_ai (.error e) complete q).1 = 0) ∧
    (∀ docs q e, complete (countUserMessage q (joinDocs docs)) = .error e →
      (count_incidents_ai (.ok docs) complete q).1 = 0) ∧
    (∀ docs q s, complete (countUserMessage q (joinDocs docs)) = .ok s →
      pyInt (pyStrip s) = none →
      (count_incidents_ai (.ok docs) complete q).1 = 0) := by
  refine ⟨?_, ?_, ?_, ?_, ?_⟩
  · unfold query_azureai_all_main
    exact (List.mergeSort_perm _ _).length_eq.trans (List.length_map _ _)
  · intro t g h
    refine ⟨⟨t, g, (count_incidents_ai (search t) complete t).1⟩, ?_, rfl, rfl, rfl⟩
    unfold query_azureai_all_main
    exact ((List.mergeSort_perm _ _).mem_iff).mpr
      (List.mem_map_of_mem
        (fun p => IncidentRecord.mk p.1 p.2
          (count_incidents_ai (search p.1) complete p.1).1) h)
  · intro e q
    rfl
  · intro docs q e hc
    by_cases hd : docs.isEmpty <;> simp [count_incidents_ai, hd, hc]
  · intro docs q s hc hp
    by_cases hd : docs.isEmpty <;> simp [count_incidents_ai, hd, hc, hp]

/-- A search oracle returning one fixed document. -/
def c3Search : List Char → Except (List Char) (List (List Char)) :=
  fun _ => .ok [("a warehouse fire was reported").toList]

/-- A completion oracle whose answer is not an integer. -/
def c3Complete : List Char → Except (List Char) (List Char) :=
  fun _ => .ok (("n/a").toList)

/-- A one-label configuration. -/
def c3Config : List (List Char × Int) := [(("fire").toList, 5)]

/-- Witness for C3: with an unparseable completion response the report
still contains the label, with discovered_count 0. -/
theorem count_incidents_ai_never_raises_witness :
    ∃ r, r ∈ query_azureai_all_main c3Search c3Complete c3Config ∧
      r.name = ("fire").toList ∧ r.ground_truth_count = 5 ∧
      r.discovered_count = 0 := by
  obtain ⟨r, hr, h1, h2, h3⟩ :=
    (count_incidents_ai_never_raises c3Search c3Complete c3Config).2.1
      (("fire").toList) 5 (by decide)
  exact ⟨r, hr, h1, h2, h3.trans (by decide)⟩

/-- Batch splitting, structured on an explicit step bound so that it
evaluates by kernel reduction; every step consumes at least one element,
so a bound of one more than the list length is never exhausted. -/
def chunkFuel : Nat → Nat → List α → List (List α)
  | 0, _, _ => []
  | _ + 1, _, [] => []
  | fuel + 1, k, x :: xs => (x :: xs).take k :: chunkFuel fuel k (xs.drop (k - 1))

/-- The batch loop header of discover_incidents: results[i:i+batch_size]
for i = 0, batch_size, 2*batch_size, ... -/
def chunkList (batch_size : Nat) (l : List α) : List (List α) :=
  chunkFuel (l.length + 1) batch_size l

/-- The batch loop body of discover_incidents in
tasks/discover_azureai.py: each batch is sent to the completion service
and its response parsed into a list of labels; the oracle respond maps
the joined batch content to that parsed list, or none when the request
fails or the response cannot be parsed as a list, in which case the
except block drops the batch and the loop continues. -/
def allIncidents (respond : List Char → Option (List (List Char)))
    (batches : List (List (List Char))) : List (List Char) :=
  batches.foldl (fun acc batch =>
    match respond (joinDocs batch) with
    | some batch_incidents => acc ++ batch_incidents
    | none => acc) []

/-- One step of the counting loop of discover_incidents:
incident_counts[incident] = incident_counts.get(incident, 0) + 1 on an
insertion-ordered association list (a Python dict preserves insertion
order, so a new key is appended and an existing key keeps its place). -/
def tallyStep (incident_counts : List (List Char × Nat)) (incident : List Char) :
    List (List Char × Nat) :=
  if incident ∈ incident_counts.map Prod.fst then
    incident_counts.map (fun p => if p.1 = incident then (p.1, p.2 + 1) else p)
  else incident_counts ++ [(incident, 1)]

/-- The per-label occurrence counts accumulated by discover_incidents. -/
def incidentCounts (all_incidents : List (List Char)) : List (List Char × Nat) :=
  all_incidents.foldl tallyStep []

/-- The total count stored under a key of an association list. -/
def keyCount (assoc : List (List Char × Nat)) (y : List Char) : Nat :=
  ((assoc.filter (fun p => decide (p.1 = y))).map Prod.snd).sum

/-- discover_incidents from tasks/discover_azureai.py: batch the
retrieved documents, collect the labels of every parseable batch
response, count occurrences of each label by exact string equality, and
return the top_n most frequent as a stable descending sort by count. -/
def discover_incidents (respond : List Char → Option (List (List Char)))
    (docs : List (List Char)) (top_n batch_size : Nat) : List (List Char × Nat) :=
  if docs.isEmpty then []
  else
    ((incidentCounts (allIncidents respond (chunkList batch_size docs))).mergeSort
      (fun a b => decide (b.2 ≤ a.2))).take top_n

theorem keyCount_cons (p : List Char × Nat) (l : List (List Char × Nat)) (y : List Char) :
    keyCount (p :: l) y = (if p.1 = y then p.2 else 0) + keyCount l y := by
  by_cases h : p.1 = y <;> simp [keyCount, List.filter_cons, h]

theorem keyCount_append (l₁ l₂ : List (List Char × Nat)) (y : List Char) :
    keyCount (l₁ ++ l₂) y = keyCount l₁ y + keyCount l₂ y := by
  simp [keyCount, List.filter_append]

theorem keys_bump (acc : List (List Char × Nat)) (x : List Char) :
    (acc.map (fun p => if p.1 = x then (p.1, p.2 + 1) else p)).map Prod.fst =
      acc.map Prod.fst := by
  induction acc with
  | nil => rfl
  | cons p rest ih => by_cases h : p.1 = x <;> simp [h, ih]

theorem filterKey_length (acc : List (List Char × Nat)) (x : List Char) :
    (acc.filter (fun p => decide (p.1 = x))).length = (acc.map Prod.fst).count x := by
  induction acc with
  | nil => rfl
  | cons p rest ih =>
    by_cases h : p.1 = x <;> simp [List.filter_cons, h, List.count_cons, ih]

theorem keyCount_bump (acc : List (List Char × Nat)) (x y : List Char) :
    keyCount (acc.map (fun p => if p.1 = x then (p.1, p.2 + 1) else p)) y =
      keyCount acc y +
        if y = x then (acc.filter (fun p => decide (p.1 = x))).length else 0 := by
  induction acc with
  | nil => simp [keyCount]
  | cons p rest ih =>
    rcases eq_or_ne y x with rfl | hy
    · by_cases hp : p.1 = y
      · simp [keyCount_cons, List.filter_cons, hp, ih]
        omega
      · simp [keyCount_cons, List.filter_cons, hp, ih]
    · have hxy : ¬(x = y) := fun hh => hy hh.symm
      by_cases hp : p.1 = x <;>
        simp [keyCount_cons, List.filter_cons, hp, hy, hxy, ih]

theorem count_eq_one_of_mem_nodup {l : List (List Char)} {x : List Char}
    (h : l.Nodup) (hx : x ∈ l) : l.count x = 1 := by
  induction l with
  | nil => cases hx
  | cons a rest ih =>
    rw [List.nodup_cons] at h
    rw [List.count_cons]
    rcases List.mem_cons.mp hx with rfl | hm
    · rw [List.count_eq_zero.mpr h.1]
      simp
    · have hne : ¬((a == x) = true) := by
        simp only [beq_iff_eq]
        intro hh
        exact h.1 (hh ▸ hm)
      rw [ih h.2 hm, if_neg hne]

theorem keyCount_zero_of_notMem (assoc : List (List Char × Nat)) (y : List Char)
    (h : y ∉ assoc.map Prod.fst) : keyCount assoc y = 0 := by
  induction assoc with
  | nil => rfl
  | cons p rest ih =>
    rw [List.map_cons, List.mem_cons] at h
    push_neg at h
    rw [keyCount_cons, if_neg (fun hh => h.1 hh.symm), ih h.2]

theorem keyCount_of_mem (assoc : List (List Char × Nat)) (p : List Char × Nat)
    (hn : (assoc.map Prod.fst).Nodup) (hp : p ∈ assoc) :
    keyCount assoc p.1 = p.2 := by
  induction assoc with
  | nil => cases hp
  | cons q rest ih =>
    rw [List.map_cons, List.nodup_cons] at hn
    rcases List.mem_cons.mp hp with rfl | hmem
    · rw [keyCount_cons, if_pos rfl, keyCount_zero_of_notMem rest p.1 hn.1]
      omega
    · have hne : q.1 ≠ p.1 := by
        intro hh
        exact hn.1 (hh ▸ List.mem_map_of_mem Prod.fst hmem)
      rw [keyCount_cons, if_neg hne, ih hn.2 hmem]
      omega

theorem tallyStep_nodup (acc : List (List Char × Nat)) (x : List Char)
    (h : (acc.map Prod.fst).Nodup) : ((tallyStep acc x).map Prod.fst).Nodup := by
  unfold tallyStep
  by_cases hx : x ∈ acc.map Prod.fst
  · rw [if_pos hx, keys_bump]
    exact h
  · rw [if_neg hx, List.map_append]
    simp [List.nodup_append, h, hx]

theorem keyCount_tallyStep (acc : List (List Char × Nat)) (x y : List Char)
    (h : (acc.map Prod.fst).Nodup) :
    keyCount (tallyStep acc x) y = keyCount acc y + if y = x then 1 else 0 := by
  unfold tallyStep
  by_cases hx : x ∈ acc.map Prod.fst
  · rw [if_pos hx, keyCount_bump]
    congr 1
    by_cases hy : y = x
    · rw [if_pos hy, if_pos hy, filterKey_length]
      exact count_eq_one_of_mem_nodup h hx
    · rw [if_neg hy, if_neg hy]
  · rw [if_neg hx, keyCount_append, keyCount_cons]
    have : keyCount ([] : List (List Char × Nat)) y = 0 := rfl
    by_cases hy : y = x
    · rw [if_pos (hy.symm), if_pos hy]
      simp [keyCount]
    · rw [if_neg (fun hh => hy hh.symm), if_neg hy]
      simp [keyCount]

theorem incidentCounts_loop (l : List (List Char)) :
    ∀ acc, (acc.map Prod.fst).Nodup →
      ((l.foldl tallyStep acc).map Prod.fst).Nodup ∧
      ∀ y, keyCount (l.foldl tallyStep acc) y = keyCount acc y + l.count y := by
  induction l with
  | nil => exact fun acc h => ⟨h, fun y => by simp⟩
  | cons x rest ih =>
    intro acc h
    obtain ⟨hn, hc⟩ := ih (tallyStep acc x) (tallyStep_nodup acc x h)
    refine ⟨hn, fun y => ?_⟩
    rw [List.foldl_cons, hc y, keyCount_tallyStep acc x y h, List.count_cons]
    rcases eq_or_ne y x with rfl | hy
    · simp
      omega
    · simp [hy, Ne.symm hy]

theorem mem_incidentCounts (l : List (List Char)) (p : List Char × Nat)
    (hp : p ∈ incidentCounts l) : p.2 = l.count p.1 := by
  obtain ⟨hn, hc⟩ := incidentCounts_loop l [] (by simp)
  have h2 := keyCount_of_mem (incidentCounts l) p hn hp
  have h3 := hc p.1
  have h0 : keyCount [] p.1 = 0 := rfl
  rw [h0] at h3
  unfold incidentCounts at h2
  omega

/-- First batch content of the C4 example. -/
def c4DocA : List Char := ("one").toList

/-- Second batch content of the C4 example. -/
def c4DocB : List Char := ("two").toList

/-- The two documents of the C4 example, batched one per request. -/
def c4Docs : List (List Char) := [c4DocA, c4DocB]

/-- Batch responses of the C4 example: the first batch yields labels a
and b, the second a and c. -/
def c4Respond : List Char → Option (List (List Char)) :=
  fun s =>
    if s = c4DocA then some [("a").toList, ("b").toList]
    else if s = c4DocB then some [("a").toList, ("c").toList]
    else none

/-- C4: every returned pair carries the exact-equality occurrence count
of its label among all batch-produced labels; the result is sorted by
count in descending order; it has min(top_n, distinct labels) entries;
and on the two example batches producing labels [a, b] then [a, c] the
counts are a 2, b 1, c 1 and the top-2 is [(a, 2), (b, 1)], the tie
between b and c broken by first encounter. -/
theorem discover_incidents_aggregation :
    (∀ respond docs top_n batch_size p,
      p ∈ discover_incidents respond docs top_n batch_size →
        p.2 = (allIncidents respond (chunkList batch_size docs)).count p.1) ∧
    (∀ respond docs top_n batch_size,
      (discover_incidents respond docs top_n batch_size).Pairwise
        (fun a b => b.2 ≤ a.2)) ∧
    (∀ respond docs top_n batch_size, docs ≠ [] →
      (discover_incidents respond docs top_n batch_size).length =
        min top_n
          (incidentCounts (allIncidents respond (chunkList batch_size docs))).length) ∧
    discover_incidents c4Respond c4Docs 2 1 = [(("a").toList, 2), (("b").toList, 1)] ∧
    incidentCounts (allIncidents c4Respond (chunkList 1 c4Docs)) =
      [(("a").toList, 2), (("b").toList, 1), (("c").toList, 1)] := by
  have hmain : ∀ respond docs top_n batch_size (p : List Char × Nat),
      p ∈ discover_incidents respond docs top_n batch_size →
        p.2 = (allIncidents respond (chunkList batch_size docs)).count p.1 := by
    intro respond docs top_n batch_size p hp
    unfold discover_incidents at hp
    by_cases hd : docs.isEmpty
    · rw [if_pos hd] at hp
      cases hp
    · rw [if_neg hd] at hp
      have h1 := List.mem_of_mem_take hp
      have h2 := (List.mergeSort_perm _ _).mem_iff.mp h1
      exact mem_incidentCounts _ _ h2
  refine ⟨hmain, ?_, ?_, ?_, ?_⟩
  · intro respond docs top_n batch_size
    unfold discover_incidents
    by_cases hd : docs.isEmpty
    · rw [if_pos hd]
      exact List.Pairwise.nil
    · rw [if_neg hd]
      have hs := @List.sorted_mergeSort (List Char × Nat)
        (fun a b => decide (b.2 ≤ a.2))
        (fun a b c hab hbc => by
          simp only [decide_eq_true_eq] at *
          omega)
        (fun a b => by
          simp only [Bool.or_eq_true, decide_eq_true_eq]
          omega)
        (incidentCounts (allIncidents respond (chunkList batch_size docs)))
      exact (List.Pairwise.sublist (List.take_sublist _ _) hs).imp
        (fun h => of_decide_eq_true h)
  · intro respond docs top_n batch_size hd
    have hd2 : docs.isEmpty = false := by simpa [List.isEmpty_iff] using hd
    unfold discover_incidents
    rw [hd2]
    simp [List.length_take, (List.mergeSort_perm _ _).length_eq]
  · have h1 : incidentCounts (allIncidents c4Respond (chunkList 1 c4Docs)) =
        [(("a").toList, 2), (("b").toList, 1), (("c").toList, 1)] := by decide
    unfold discover_incidents
    rw [if_neg (by decide), h1]
    simp [List.mergeSort]
  · decide

/-- Witness for C4: the count conjunct applied to the pair (a, 2) of the
concrete example, and the length conjunct applied to the example run. -/
theorem discover_incidents_aggregation_witness :
    (("a").toList, 2).2 =
      (allIncidents c4Respond (chunkList 1 c4Docs)).count (("a").toList, 2).1 ∧
    (discover_incidents c4Respond c4Docs 2 1).length =
      min 2 (incidentCounts (allIncidents c4Respond (chunkList 1 c4Docs))).length := by
  constructor
  · exact discover_incidents_aggregation.1 c4Respond c4Docs 2 1 (("a").toList, 2)
      (by rw [discover_incidents_aggregation.2.2.2.1]; decide)
  · exact discover_incidents_aggregation.2.2.1 c4Respond c4Docs 2 1 (by decide)

/-- C5: a batch whose response does not parse contributes nothing: the
collected label list, and hence the aggregated counts, are the same as
if the batch were absent, while the surrounding batches are still
processed. -/
theorem allIncidents_skips_unparseable
    (respond : List Char → Option (List (List Char)))
    (pre post : List (List (List Char))) (bad : List (List Char))
    (hbad : respond (joinDocs bad) = none) :
    allIncidents respond (pre ++ bad :: post) = allIncidents respond (pre ++ post) ∧
    incidentCounts (allIncidents respond (pre ++ bad :: post)) =
      incidentCounts (allIncidents respond (pre ++ post)) := by
  have h : allIncidents respond (pre ++ bad :: post) =
      allIncidents respond (pre ++ post) := by
    unfold allIncidents
    rw [List.foldl_append, List.foldl_append, List.foldl_cons, hbad]
  exact ⟨h, by rw [h]⟩

/-- Responses of the C5 witness: the good batch parses, the bad one does
not. -/
def c5Respond : List Char → Option (List (List Char)) :=
  fun s => if s = ("x").toList then some [("lab").toList] else none

/-- The single good batch of the C5 witness. -/
def c5Post : List (List (List Char)) := [[("x").toList]]

/-- The unparseable batch of the C5 witness. -/
def c5Bad : List (List Char) := [("y").toList]

/-- Witness for C5: dropping the concrete unparseable batch leaves the
collected labels unchanged. -/
theorem allIncidents_skips_unparseable_witness :
    allIncidents c5Respond ([] ++ c5Bad :: c5Post) =
      allIncidents c5Respond ([] ++ c5Post) :=
  (allIncidents_skips_unparseable c5Respond [] c5Post c5Bad (by decide)).1

/-- Decimal digit run of str(n) for a natural number, structured on an
explicit step bound so that it evaluates by kernel reduction; the
quotient shrinks every step, so a bound of one more than the number is
never exhausted. -/
def natDigitsFuel : Nat → Nat → List Char
  | 0, _ => []
  | fuel + 1, n =>
    if n < 10 then [Char.ofNat (48 + n)]
    else natDigitsFuel fuel (n / 10) ++ [Char.ofNat (48 + n % 10)]

/-- Decimal digits of a natural number, most significant first. -/
def natDigits (n : Nat) : List Char := natDigitsFuel (n + 1) n

/-- Python str(n) for an int: optional minus sign followed by decimal
digits, as csv.DictWriter renders the two count fields. -/
def intToChars (n : Int) : List Char :=
  if n < 0 then '-' :: natDigits (-n).toNat else natDigits n.toNat

/-- QUOTE_MINIMAL test of the csv module: a field is quoted exactly when
it contains the delimiter, the quote character or a line-break
character. -/
def csvNeedsQuoting (field : List Char) : Bool :=
  field.any (fun c => c == ',' || c == '"' || c == '\r' || c == '\n')

/-- Field rendering of the csv module: quote when needed, doubling any
embedded quote character. -/
def csvEscape (field : List Char) : List Char :=
  if csvNeedsQuoting field then
    '"' :: (field.flatMap (fun c => if c == '"' then ['"', '"'] else [c])) ++ ['"']
  else field

/-- Fields joined by the comma delimiter. -/
def joinComma : List (List Char) → List Char
  | [] => []
  | [f] => f
  | f :: g :: rest => f ++ ',' :: joinComma (g :: rest)

/-- One physical CSV row: escaped fields joined by commas, terminated by
CRLF (the csv module default line terminator). -/
def csvRow (fields : List (List Char)) : List Char :=
  joinComma (fields.map csvEscape) ++ ['\r', '\n']

/-- The header row written by DictWriter.writeheader with the fixed
fieldnames of generate_report. -/
def csvHeaderRow : List Char :=
  csvRow [("name").toList, ("ground_truth_count").toList, ("discovered_count").toList]

/-- One record row of the CSV report, fields in the fixed fieldnames
order. -/
def recordCsvRow (r : IncidentRecord) : List Char :=
  csvRow [r.name, intToChars r.ground_truth_count, intToChars r.discovered_count]

/-- The full CSV file text written by generate_report: header then one
row per record. -/
def reportCsv (results : List IncidentRecord) : List Char :=
  csvHeaderRow ++ (results.map recordCsvRow).flatten

/-- Number of line-feed characters of a text; every CSV row above is
terminated by one, so this counts the written lines. -/
def countLines (s : List Char) : Nat := s.count '\n'

/-- The JSON values produced and consumed by the json module for the
report data: strings, integers, arrays and objects. -/
inductive PyJson where
  | jstr : List Char → PyJson
  | jint : Int → PyJson
  | jarr : List PyJson → PyJson
  | jobj : List (List Char × PyJson) → PyJson

/-- The JSON object json.dump writes for one report record, keys in
insertion order. -/
def recordToJson (r : IncidentRecord) : PyJson :=
  .jobj [(("name").toList, .jstr r.name),
         (("ground_truth_count").toList, .jint r.ground_truth_count),
         (("discovered_count").toList, .jint r.discovered_count)]

/-- The JSON array json.dump writes for the whole report. -/
def reportToJson (results : List IncidentRecord) : PyJson :=
  .jarr (results.map recordToJson)

/-- Reading one record back from its JSON object. -/
def recordOfJson : PyJson → Option IncidentRecord
  | .jobj [(k1, .jstr n), (k2, .jint g), (k3, .jint d)] =>
    if k1 = ("name").toList ∧ k2 = ("ground_truth_count").toList ∧
        k3 = ("discovered_count").toList then
      some (IncidentRecord.mk n g d)
    else none
  | _ => none

/-- Reading a list of records back from a JSON array body. -/
def recordsOfJson : List PyJson → Option (List IncidentRecord)
  | [] => some []
  | j :: rest =>
    match recordOfJson j, recordsOfJson rest with
    | some r, some rs => some (r :: rs)
    | _, _ => none

/-- json.load of the report file followed by record extraction. -/
def reportOfJson : PyJson → Option (List IncidentRecord)
  | .jarr xs => recordsOfJson xs
  | _ => none

/-- Python s.rfind(c): index of the last occurrence, or -1. -/
def pyRfindIdx (c : Char) (s : List Char) : Int :=
  match (s.reverse).findIdx? (fun x => x == c) with
  | some i => (s.length : Int) - 1 - (i : Int)
  | none => -1

/-- os.path.splitext(p)[0] for POSIX paths: cut at the last dot, unless
it lies before the last separator or only leading dots of the basename
precede it. -/
def splitextRoot (p : List Char) : List Char :=
  let sepIndex := pyRfindIdx '/' p
  let dotIndex := pyRfindIdx '.' p
  if sepIndex < dotIndex then
    let lead := (p.take dotIndex.toNat).drop (sepIndex + 1).toNat
    if lead.any (fun ch => ch != '.') then p.take dotIndex.toNat else p
  else p

/-- The JSON report path built by generate_report in
tasks/query_azure_search_all.py: the output stem, an underscore, the
timestamp, and the extension. -/
def jsonReportFilename (output_file ts : List Char) : List Char :=
  splitextRoot output_file ++ '_' :: ts ++ (".json").toList

/-- The CSV report path built by generate_report, same stem and
timestamp. -/
def csvReportFilename (output_file ts : List Char) : List Char :=
  splitextRoot output_file ++ '_' :: ts ++ (".csv").toList

theorem natDigitsFuel_digit :
    ∀ fuel n c, c ∈ natDigitsFuel fuel n → ∃ d, d < 10 ∧ c = Char.ofNat (48 + d) := by
  intro fuel
  induction fuel with
  | zero => intro n c hc; cases hc
  | succ fuel ih =>
    intro n c hc
    unfold natDigitsFuel at hc
    by_cases h : n < 10
    · rw [if_pos h] at hc
      rcases List.mem_singleton.mp hc with rfl
      exact ⟨n, h, rfl⟩
    · rw [if_neg h] at hc
      rcases List.mem_append.mp hc with h1 | h1
      · exact ih _ _ h1
      · rcases List.mem_singleton.mp h1 with rfl
        exact ⟨n % 10, Nat.mod_lt _ (by omega), rfl⟩

theorem digitChar_flags :
    ∀ d, d < 10 →
      ((Char.ofNat (48 + d) == ',') = false ∧ (Char.ofNat (48 + d) == '"') = false ∧
       (Char.ofNat (48 + d) == '\r') = false ∧ (Char.ofNat (48 + d) == '\n') = false) := by
  have h : ∀ d : Fin 10,
      ((Char.ofNat (48 + d.val) == ',') = false ∧ (Char.ofNat (48 + d.val) == '"') = false ∧
       (Char.ofNat (48 + d.val) == '\r') = false ∧
       (Char.ofNat (48 + d.val) == '\n') = false) := by decide
  exact fun d hd => h ⟨d, hd⟩

theorem intToChars_flags (n : Int) :
    ∀ c ∈ intToChars n,
      ((c == ',') = false ∧ (c == '"') = false ∧
       (c == '\r') = false ∧ (c == '\n') = false) := by
  intro c hc
  unfold intToChars at hc
  have hdig : ∀ m : Nat, c ∈ natDigits m → _ := fun m hm => natDigitsFuel_digit _ _ _ hm
  by_cases h : n < 0
  · rw [if_pos h] at hc
    rcases List.mem_cons.mp hc with rfl | hm
    · exact ⟨rfl, rfl, rfl, rfl⟩
    · obtain ⟨d, hd, rfl⟩ := natDigitsFuel_digit _ _ _ hm
      exact digitChar_flags d hd
  · rw [if_neg h] at hc
    obtain ⟨d, hd, rfl⟩ := natDigitsFuel_digit _ _ _ hc
    exact digitChar_flags d hd

theorem intToChars_clean (n : Int) :
    csvNeedsQuoting (intToChars n) = false ∧ '\n' ∉ intToChars n := by
  constructor
  · rw [csvNeedsQuoting, List.any_eq_false]
    intro c hc
    obtain ⟨h1, h2, h3, h4⟩ := intToChars_flags n c hc
    simp [h1, h2, h3, h4]
  · intro hmem
    obtain ⟨h1, h2, h3, h4⟩ := intToChars_flags n '\n' hmem
    simp at h4

theorem count_nl_csvEscape (field : List Char) (h : '\n' ∉ field) :
    List.count '\n' (csvEscape field) = 0 := by
  unfold csvEscape
  split
  · rw [List.count_append, List.count_cons]
    have h1 : List.count '\n' (field.flatMap
        (fun c => if c == '"' then ['"', '"'] else [c])) = 0 := by
      rw [List.count_eq_zero]
      intro hmem
      rcases List.mem_flatMap.mp hmem with ⟨a, ha, hin⟩
      by_cases hq : (a == '"') = true
      · rw [if_pos hq] at hin
        rcases List.mem_cons.mp hin with h2 | h2 <;> simp at h2
      · rw [if_neg hq] at hin
        rcases List.mem_singleton.mp hin with rfl
        exact h ha
    rw [h1]
    decide
  · exact List.count_eq_zero.mpr h

theorem count_nl_joinComma (fields : List (List Char))
    (h : ∀ f ∈ fields, List.count '\n' f = 0) :
    List.count '\n' (joinComma fields) = 0 := by
  match fields with
  | [] => rfl
  | [f] => exact h f (by simp)
  | f :: g :: rest =>
    rw [joinComma, List.count_append, List.count_cons]
    rw [h f (by simp), count_nl_joinComma (g :: rest)
      (fun x hx => h x (List.mem_cons_of_mem f hx))]
    decide

theorem count_nl_csvRow (fields : List (List Char))
    (h : ∀ f ∈ fields, List.count '\n' (csvEscape f) = 0) :
    List.count '\n' (csvRow fields) = 1 := by
  rw [csvRow, List.count_append, count_nl_joinComma]
  · decide
  · intro f hf
    rcases List.mem_map.mp hf with ⟨g, hg, rfl⟩
    exact h g hg

theorem count_nl_recordCsvRow (r : IncidentRecord) (h : '\n' ∉ r.name) :
    List.count '\n' (recordCsvRow r) = 1 := by
  rw [recordCsvRow]
  apply count_nl_csvRow
  intro f hf
  rcases List.mem_cons.mp hf with rfl | hf
  · exact count_nl_csvEscape _ h
  rcases List.mem_cons.mp hf with rfl | hf
  · exact count_nl_csvEscape _ (intToChars_clean _).2
  rcases List.mem_cons.mp hf with rfl | hf
  · exact count_nl_csvEscape _ (intToChars_clean _).2
  · cases hf

theorem countLines_reportCsv (results : List IncidentRecord)
    (h : ∀ r ∈ results, '\n' ∉ r.name) :
    countLines (reportCsv results) = results.length + 1 := by
  rw [countLines, reportCsv, List.count_append]
  have hhead : List.count '\n' csvHeaderRow = 1 := by decide
  have hrows : ∀ rs : List IncidentRecord, (∀ r ∈ rs, '\n' ∉ r.name) →
      List.count '\n' (rs.map recordCsvRow).flatten = rs.length := by
    intro rs
    induction rs with
    | nil => intro _; rfl
    | cons r rest ih =>
      intro hr
      rw [List.map_cons, List.flatten_cons, List.count_append,
        count_nl_recordCsvRow r (hr r (by simp)),
        ih (fun x hx => hr x (List.mem_cons_of_mem r hx))]
      simp only [List.length_cons]
      omega
  rw [hhead, hrows results h]
  omega

theorem recordsOfJson_map (results : List IncidentRecord) :
    recordsOfJson (results.map recordToJson) = some results := by
  induction results with
  | nil => rfl
  | cons r rest ih =>
    rw [List.map_cons, recordsOfJson]
    have h1 : recordOfJson (recordToJson r) = some r := by
      cases r
      rw [recordToJson, recordOfJson, if_pos ⟨rfl, rfl, rfl⟩]
    rw [h1, ih]

/-- A record whose name embeds a line feed. -/
def c6BadRecords : List IncidentRecord := [IncidentRecord.mk ['a', '\n', 'b'] 1 2]

/-- C6 (counterexample): for a one-record report whose name contains a
line feed, the csv module quotes the field but the embedded line feed
still reaches the file, which therefore has 3 lines, not N + 1 = 2. -/
theorem generate_report_csv_lines_cex :
    countLines (reportCsv c6BadRecords) = 3 ∧ c6BadRecords.length + 1 = 2 :=
  ⟨by decide, by decide⟩

/-- C6 (amended): for every record list whose names contain no line
break, the JSON file parses back to the identical record list, the CSV
text has exactly N + 1 lines and starts with the fixed header
name, ground_truth_count, discovered_count, and both report filenames
carry the generation timestamp between the output stem and their
extension; a name embedding a line break adds physical lines (see the
counterexample). -/
theorem generate_report_roundtrip (results : List IncidentRecord)
    (output_file ts : List Char)
    (h : ∀ r ∈ results, '\n' ∉ r.name ∧ '\r' ∉ r.name) :
    reportOfJson (reportToJson results) = some results ∧
    countLines (reportCsv results) = results.length + 1 ∧
    (reportCsv results).take csvHeaderRow.length = csvHeaderRow ∧
    (∃ stem, jsonReportFilename output_file ts = stem ++ '_' :: ts ++ (".json").toList ∧
      csvReportFilename output_file ts = stem ++ '_' :: ts ++ (".csv").toList) := by
  refine ⟨?_, ?_, ?_, splitextRoot output_file, rfl, rfl⟩
  · rw [reportToJson, reportOfJson]
    exact recordsOfJson_map results
  · exact countLines_reportCsv results (fun r hr => (h r hr).1)
  · rw [reportCsv]
    exact List.take_left _ _

/-- A two-record report used to witness the amended C6. -/
def c6Records : List IncidentRecord :=
  [IncidentRecord.mk (("fire").toList) 5 3,
   IncidentRecord.mk (("slip and fall").toList) 2 0]

/-- Witness for the amended C6 on a concrete two-record report: the JSON
round-trip is the identity and the CSV text has 3 lines. -/
theorem generate_report_roundtrip_witness :
    reportOfJson (reportToJson c6Records) = some c6Records ∧
    countLines (reportCsv c6Records) = 3 := by
  have h := generate_report_roundtrip c6Records
    (("reports/terms_discovered.json").toList) (("20241001_120000").toList)
    (by decide)
  exact ⟨h.1, h.2.1.trans (by decide)⟩

/-- generate_report from tasks/query_azure_search_all.py (and the
archived variant), viewed through its error flow: the JSON write then
the CSV write run inside a try block whose except clause logs and
re-raises, so the first failure propagates to the caller. -/
def generate_report_flow (ε : Type) (json_write csv_write : Except ε Unit) :
    Except ε Unit :=
  match json_write with
  | .error e => .error e
  | .ok _ =>
    match csv_write with
    | .error e => .error e
    | .ok _ => .ok ()

/-- write_top_incidents_to_files from tasks/discover_azureai.py, viewed
through its error flow: the except clause only logs, so the function
returns normally whatever the outcome of either write. -/
def write_top_incidents_to_files_flow (ε : Type)
    (json_write csv_write : Except ε Unit) : Except ε Unit :=
  match json_write with
  | .error _ => .ok ()
  | .ok _ =>
    match csv_write with
    | .error _ => .ok ()
    | .ok _ => .ok ()

/-- write_top_incidents_to_json from tasks/discover_search.py: a single
write with the same log-only except clause. -/
def write_top_incidents_to_json_flow (ε : Type) (json_write : Except ε Unit) :
    Except ε Unit :=
  match json_write with
  | .error _ => .ok ()
  | .ok _ => .ok ()

/-- C7 (counterexample): a failing write inside
write_top_incidents_to_files is not re-raised: the function returns
normally, so not every report-writing operation of the repository
propagates write errors. -/
theorem report_write_error_swallowed_cex :
    write_top_incidents_to_files_flow Nat (.error 7) (.ok ()) = .ok () ∧
    write_top_incidents_to_files_flow Nat (.error 7) (.ok ()) ≠ .error 7 ∧
    write_top_incidents_to_json_flow Nat (.error 7) = .ok () :=
  ⟨rfl, fun h => Except.noConfusion h, rfl⟩

/-- C7 (amended): a write error inside generate_report is logged and
re-raised, aborting the run, whichever of the two writes fails; but the
report writers of the two discovery scripts
(write_top_incidents_to_files, write_top_incidents_to_json) log the
error and return normally, swallowing it. -/
theorem report_write_error_propagation (ε : Type) (e : ε) (w : Except ε Unit) :
    generate_report_flow ε (.error e) w = .error e ∧
    generate_report_flow ε (.ok ()) (.error e) = .error e ∧
    write_top_incidents_to_files_flow ε (.error e) w = .ok () ∧
    write_top_incidents_to_files_flow ε (.ok ()) (.error e) = .ok () ∧
    write_top_incidents_to_json_flow ε (.error e) = .ok () :=
  ⟨rfl, rfl, rfl, rfl, rfl⟩

/-- The eight scripts of the repository. -/
inductive ScriptVariant where
  | create_index
  | discover_azureai
  | discover_search
  | query_azure_search_all
  | query_azureai
  | query_azureai_all
  | query_openai
  | archive_query_all
deriving DecidableEq

/-- The parameters of a tenacity retry decorator: attempt limit and
exponential wait multiplier with clamping bounds. -/
structure RetryPolicy where
  attempts : Nat
  multiplier : Nat
  wait_min : Nat
  wait_max : Nat
deriving DecidableEq

/-- Which script wraps its completion-service call in a retry decorator:
only make_openai_request in tasks/discover_azureai.py, with
stop_after_attempt(5) and wait_exponential(multiplier=1, min=4, max=10);
no call in any other script of the repository carries retry logic. -/
def completionRetry : ScriptVariant → Option RetryPolicy
  | .discover_azureai => some (RetryPolicy.mk 5 1 4 10)
  | _ => none

/-- The tenacity wait_exponential schedule: multiplier times 2 to the
attempt number, clamped into the min and max bounds. -/
def waitExponential (multiplier wait_min wait_max attempt_number : Nat) : Nat :=
  max wait_min (min (multiplier * 2 ^ attempt_number) wait_max)

/-- The waits slept between consecutive attempts of a policy (one fewer
than the attempt limit). -/
def retryWaits (p : RetryPolicy) : List Nat :=
  (List.range (p.attempts - 1)).map
    (fun i => waitExponential p.multiplier p.wait_min p.wait_max (i + 1))

/-- Retry execution with a given number of allowed attempts: run the
next attempt, return the first success, give up with the last error once
the attempts are exhausted; the second component is the index one past
the last attempt made, so starting at index 0 it counts the attempts. -/
def runRetry (f : Nat → Except ε α) : Nat → Nat → Except ε α × Nat
  | 0, k => (f k, k + 1)
  | fuel + 1, k =>
    match f k with
    | .ok a => (.ok a, k + 1)
    | .error e =>
      match fuel with
      | 0 => (.error e, k + 1)
      | m + 1 => runRetry f (m + 1) (k + 1)

theorem runRetry_attempts_le (f : Nat → Except ε α) :
    ∀ n k, 1 ≤ n → (runRetry f n k).2 ≤ k + n := by
  intro n
  induction n with
  | zero => intro k h; exact absurd h (by omega)
  | succ fuel ih =>
    intro k _
    rw [runRetry]
    cases hf : f k with
    | ok a =>
      show k + 1 ≤ k + (fuel + 1)
      omega
    | error e =>
      cases fuel with
      | zero =>
        show k + 1 ≤ k + (0 + 1)
        omega
      | succ m =>
        have h := ih (k + 1) (by omega)
        show (runRetry f (m + 1) (k + 1)).2 ≤ k + (m + 1 + 1)
        omega

/-- C8: exactly the discover script wraps its completion call in retry
logic, with at most 5 attempts and exponential waits of multiplier 1
clamped between 4 and 10 (concretely the waits 4, 4, 8, 10); every
other script carries no retry. -/
theorem single_retry_site :
    completionRetry .discover_azureai = some (RetryPolicy.mk 5 1 4 10) ∧
    (∀ s, s ≠ ScriptVariant.discover_azureai → completionRetry s = none) ∧
    retryWaits (RetryPolicy.mk 5 1 4 10) = [4, 4, 8, 10] ∧
    (∀ w ∈ retryWaits (RetryPolicy.mk 5 1 4 10), 4 ≤ w ∧ w ≤ 10) ∧
    (∀ (ε α : Type) (f : Nat → Except ε α), (runRetry f 5 0).2 ≤ 5) := by
  refine ⟨rfl, ?_, by decide, by decide, ?_⟩
  · intro s hs
    cases s <;> first | rfl | exact absurd rfl hs
  · intro ε α f
    have h := runRetry_attempts_le f 5 0 (by omega)
    omega

/-- Witness for C8: the model-delegated full-pipeline script carries no
retry, and the wait 10 of the concrete schedule lies between the
bounds. -/
theorem single_retry_site_witness :
    completionRetry ScriptVariant.query_azureai_all = none ∧ (4 ≤ 10 ∧ 10 ≤ 10) :=
  ⟨single_retry_site.2.1 ScriptVariant.query_azureai_all (by decide),
   single_retry_site.2.2.2.1 10 (by decide)⟩

/-- The triple-double-quote wrapping applied by load_incident_types in
tasks/query_azure_search_all.py to a label containing a space. -/
def tripleQuoted (term : List Char) : List Char :=
  '"' :: '"' :: '"' :: term ++ ['"', '"', '"']

/-- load_incident_types from tasks/query_azure_search_all.py: the
configuration distribution with every label containing a space replaced
by its triple-quoted form, counts unchanged, order preserved. -/
def load_incident_types (incident_types : List (List Char × Int)) :
    List (List Char × Int) :=
  incident_types.map (fun p => if ' ' ∈ p.1 then (tripleQuoted p.1, p.2) else p)

/-- The per-label loop of main in tasks/query_azure_search_all.py: one
record per loaded label, name taken from the (possibly rewritten) label,
discovered count from the count estimator. -/
def query_azure_search_all_main (counts : List Char → Int)
    (incident_types : List (List Char × Int)) : List IncidentRecord :=
  (load_incident_types incident_types).map
    (fun p => IncidentRecord.mk p.1 p.2 (counts p.1))

/-- C10: a configured label containing a space is loaded as its
triple-quoted form with its count unchanged, and that form differs from
the label as written, so the name field of its report record differs
from the configuration; a label without a space is loaded unchanged. -/
theorem load_incident_types_triple_quotes (incident_types : List (List Char × Int))
    (counts : List Char → Int) (term : List Char) (c : Int)
    (hmem : (term, c) ∈ incident_types) :
    (' ' ∈ term →
      (tripleQuoted term, c) ∈ load_incident_types incident_types ∧
      tripleQuoted term ≠ term ∧
      ∃ r, r ∈ query_azure_search_all_main counts incident_types ∧
        r.name = tripleQuoted term ∧ r.name ≠ term ∧ r.ground_truth_count = c) ∧
    (' ' ∉ term → (term, c) ∈ load_incident_types incident_types) := by
  have hne : tripleQuoted term ≠ term := by
    intro hh
    have hlen := congrArg List.length hh
    simp [tripleQuoted, List.length_append] at hlen
    omega
  constructor
  · intro hsp
    have h1 : (tripleQuoted term, c) ∈ load_incident_types incident_types := by
      unfold load_incident_types
      refine List.mem_map.mpr ⟨(term, c), hmem, ?_⟩
      simp [hsp]
    refine ⟨h1, hne,
      IncidentRecord.mk (tripleQuoted term) c (counts (tripleQuoted term)),
      ?_, rfl, hne, rfl⟩
    exact List.mem_map.mpr ⟨(tripleQuoted term, c), h1, rfl⟩
  · intro hsp
    unfold load_incident_types
    refine List.mem_map.mpr ⟨(term, c), hmem, ?_⟩
    simp [hsp]

/-- A one-label configuration with a multi-word label. -/
def c10Config : List (List Char × Int) := [(("slip and fall").toList, 2)]

/-- Witness for C10: the concrete multi-word label is loaded
triple-quoted, and the loaded name differs from the configured one. -/
theorem load_incident_types_triple_quotes_witness :
    (tripleQuoted (("slip and fall").toList), 2) ∈ load_incident_types c10Config ∧
    tripleQuoted (("slip and fall").toList) ≠ ("slip and fall").toList := by
  have h := (load_incident_types_triple_quotes c10Config (fun _ => 0)
    (("slip and fall").toList) 2 (by decide)).1 (by decide)
  exact ⟨h.1, h.2.1⟩

/-- The URL-safe base64 alphabet used by base64.urlsafe_b64encode. -/
def b64Alphabet : List Char :=
  ("ABCDEFGHIJKLMNOPQRSTUVWXYZabcdefghijklmnopqrstuvwxyz0123456789-_").toList

/-- The alphabet character of a six-bit value. -/
def b64Char (n : Nat) : Char := b64Alphabet.getD n 'A'

/-- The six-bit value of an alphabet character. -/
def b64Val (c : Char) : Option Nat := b64Alphabet.findIdx? (fun x => x == c)

/-- base64 encoding of a byte sequence: big-endian six-bit groups over
each block of three bytes, the final partial block padded with = to a
four-character quantum. -/
def b64EncodeGroups : List Nat → List Char
  | [] => []
  | [a] => [b64Char (a / 4), b64Char (a % 4 * 16), '=', '=']
  | [a, b] =>
    [b64Char (a / 4), b64Char (a % 4 * 16 + b / 16), b64Char (b % 16 * 4), '=']
  | a :: b :: c :: rest =>
    b64Char (a / 4) :: b64Char (a % 4 * 16 + b / 16) ::
      b64Char (b % 16 * 4 + c / 64) :: b64Char (c % 64) :: b64EncodeGroups rest

/-- encode_filename from tasks/query_azure_search_all.py (identical in
tasks/query_azureai.py and the archived variant): drop the last four
characters of the filename (its .txt extension) and URL-safe base64
encode the remainder.  The filename is modelled as its UTF-8 byte
sequence; for a filename ending in the four ASCII bytes of .txt,
dropping the last four characters and the last four bytes agree. -/
def encode_filename (filename : List Nat) : List Char :=
  b64EncodeGroups (filename.take (filename.length - 4))

/-- base64 decoding of a padded quantum sequence, the inverse used to
establish that the encoder is injective. -/
def b64DecodeGroups : List Char → Option (List Nat)
  | [] => some []
  | c1 :: c2 :: c3 :: c4 :: rest =>
    if c3 = '=' ∧ c4 = '=' ∧ rest = [] then
      match b64Val c1, b64Val c2 with
      | some s1, some s2 => some [s1 * 4 + s2 / 16]
      | _, _ => none
    else if c4 = '=' ∧ rest = [] then
      match b64Val c1, b64Val c2, b64Val c3 with
      | some s1, some s2, some s3 =>
        some [s1 * 4 + s2 / 16, s2 % 16 * 16 + s3 / 4]
      | _, _, _ => none
    else
      match b64Val c1, b64Val c2, b64Val c3, b64Val c4, b64DecodeGroups rest with
      | some s1, some s2, some s3, some s4, some ds =>
        some ((s1 * 4 + s2 / 16) :: (s2 % 16 * 16 + s3 / 4) :: (s3 % 4 * 64 + s4) :: ds)
      | _, _, _, _, _ => none
  | _ => none

theorem b64Val_b64Char : ∀ n, n < 64 → b64Val (b64Char n) = some n := by
  have h : ∀ n : Fin 64, b64Val (b64Char n.val) = some n.val := by decide
  exact fun n hn => h ⟨n, hn⟩

theorem b64Char_ne_pad : ∀ n, b64Char n ≠ '=' := by
  intro n
  by_cases h : n < 64
  · have hh : ∀ m : Fin 64, b64Char m.val ≠ '=' := by decide
    exact hh ⟨n, h⟩
  · rw [b64Char, List.getD_eq_default]
    · decide
    · have hlen : b64Alphabet.length = 64 := by decide
      omega

theorem b64_roundtrip :
    ∀ bs : List Nat, (∀ x ∈ bs, x < 256) →
      b64DecodeGroups (b64EncodeGroups bs) = some bs
  | [], _ => rfl
  | [a], h => by
    have ha : a < 256 := h a (by simp)
    have h1 : a / 4 < 64 := by omega
    have h2 : a % 4 * 16 < 64 := by omega
    simp [b64EncodeGroups, b64DecodeGroups,
      b64Val_b64Char _ h1, b64Val_b64Char _ h2]
    omega
  | [a, b], h => by
    have ha : a < 256 := h a (by simp)
    have hb : b < 256 := h b (by simp)
    have h1 : a / 4 < 64 := by omega
    have h2 : a % 4 * 16 + b / 16 < 64 := by omega
    have h3 : b % 16 * 4 < 64 := by omega
    simp [b64EncodeGroups, b64DecodeGroups, b64Char_ne_pad,
      b64Val_b64Char _ h1, b64Val_b64Char _ h2, b64Val_b64Char _ h3]
    omega
  | a :: b :: c :: rest, h => by
    have ha : a < 256 := h a (by simp)
    have hb : b < 256 := h b (by simp)
    have hc : c < 256 := h c (by simp)
    have h1 : a / 4 < 64 := by omega
    have h2 : a % 4 * 16 + b / 16 < 64 := by omega
    have h3 : b % 16 * 4 + c / 64 < 64 := by omega
    have h4 : c % 64 < 64 := by omega
    have hrest := b64_roundtrip rest (fun x hx => h x (by simp [hx]))
    simp [b64EncodeGroups, b64DecodeGroups, b64Char_ne_pad, hrest,
      b64Val_b64Char _ h1, b64Val_b64Char _ h2, b64Val_b64Char _ h3,
      b64Val_b64Char _ h4]
    omega

theorem b64EncodeGroups_inj (bs1 bs2 : List Nat)
    (h1 : ∀ x ∈ bs1, x < 256) (h2 : ∀ x ∈ bs2, x < 256)
    (he : b64EncodeGroups bs1 = b64EncodeGroups bs2) : bs1 = bs2 := by
  have r1 := b64_roundtrip bs1 h1
  have r2 := b64_roundtrip bs2 h2
  rw [he, r2] at r1
  exact (Option.some.inj r1).symm

/-- The UTF-8 bytes of the .txt extension. -/
def txtSuffix : List Nat := [46, 116, 120, 116]

/-- C9: on byte sequences of valid bytes ending in the .txt suffix, the
document id derivation is deterministic and injective: two such
filenames are equal exactly when their encoded ids are equal. -/
theorem encode_filename_injective (f1 f2 : List Nat)
    (hb1 : ∀ x ∈ f1, x < 256) (hb2 : ∀ x ∈ f2, x < 256)
    (hs1 : txtSuffix.IsSuffix f1) (hs2 : txtSuffix.IsSuffix f2) :
    f1 = f2 ↔ encode_filename f1 = encode_filename f2 := by
  constructor
  · intro h
    rw [h]
  · intro h
    obtain ⟨p1, hp1⟩ := hs1
    obtain ⟨p2, hp2⟩ := hs2
    have ht1 : f1.take (f1.length - 4) = p1 := by
      rw [← hp1]
      have hlen : (p1 ++ txtSuffix).length - 4 = p1.length := by
        simp [List.length_append, txtSuffix]
      rw [hlen]
      exact List.take_left _ _
    have ht2 : f2.take (f2.length - 4) = p2 := by
      rw [← hp2]
      have hlen : (p2 ++ txtSuffix).length - 4 = p2.length := by
        simp [List.length_append, txtSuffix]
      rw [hlen]
      exact List.take_left _ _
    have hq1 : ∀ x ∈ p1, x < 256 := by
      intro x hx
      exact hb1 x (by rw [← hp1]; exact List.mem_append_left _ hx)
    have hq2 : ∀ x ∈ p2, x < 256 := by
      intro x hx
      exact hb2 x (by rw [← hp2]; exact List.mem_append_left _ hx)
    have hpp : p1 = p2 := by
      apply b64EncodeGroups_inj p1 p2 hq1 hq2
      rw [encode_filename, encode_filename, ht1, ht2] at h
      exact h
    rw [← hp1, ← hp2, hpp]

/-- Witness for C9: the ids of the concrete filenames a.txt and b.txt
differ, derived through the injectivity theorem. -/
theorem encode_filename_injective_witness :
    encode_filename [97, 46, 116, 120, 116] ≠
      encode_filename [98, 46, 116, 120, 116] := by
  intro h
  have heq := (encode_filename_injective [97, 46, 116, 120, 116]
    [98, 46, 116, 120, 116] (by decide) (by decide)
    ⟨[97], rfl⟩ ⟨[98], rfl⟩).mpr h
  exact absurd heq (by decide)

end AzureIncidents
